import Mathlib

/-!
Verification of the retry-failures batch extraction engine.

Shallow embedding of the three scripts of the repository:
* `retry_failures_batch.py` — namespace `Retry.RFB`: checkpointed batch scheduler
  (`main`), challenge wait loop, single-shot extraction, checkpoint manager
  (`load_checkpoint` / `save_checkpoint`) and result sink (`append_results`).
* `retry_failures.py` — namespace `Retry.RF`: v1 engine (`main`), challenge wait
  loop with one-shot refresh, per-item retry loop (`extract_url_data`) and sink
  (`save_results`).
* `check_status.py` — namespace `Retry.CheckStatus`: status reader
  (`load_checkpoint`, `count_success_failure`).

External effects are modelled explicitly: the render session is an oracle giving
each item's page outcome, file states are inductive types (missing / corrupt /
valid), time advances only in `time.sleep` calls, and session identity is a
counter incremented at each `create_driver()` call.
-/

namespace Retry

/-- An extraction record as written to the results file: the `url`, the three
extracted fields (`""` when absent, mirroring Python falsiness of missing
values), the optional `error` string, and the optional `extracted_at`
timestamp (only the v1 engine sets it). -/
structure Result where
  url : String
  h1 : String
  h2 : String
  content : String
  error : Option String
  extractedAt : Option String
deriving Repr, DecidableEq

/-- Python truthiness of a string field: non-empty. -/
def truthy (s : String) : Bool := !(s == "")

/-- Python's `str.strip()`: drop whitespace from both ends. -/
def strip (s : String) : String :=
  ⟨((s.data.dropWhile Char.isWhitespace).reverse.dropWhile Char.isWhitespace).reverse⟩

/-- The success test used by both `main` loops and by
`check_status.count_success_failure`: `r.get('h1') or r.get('h2') or
r.get('content')`. Note it does not look at `error`. -/
def isSuccessRecord (r : Result) : Bool := truthy r.h1 || truthy r.h2 || truthy r.content

/-- The spec's classification rule (claim C3): at least one field non-empty AND
`error` unset. -/
def specSuccess (r : Result) : Bool :=
  (truthy r.h1 || truthy r.h2 || truthy r.content) && r.error.isNone

/-- A result is well-formed when an `error` entry implies all fields are empty.
Every record the two engines construct satisfies this. -/
def WFResult (r : Result) : Prop := r.error.isSome → r.h1 = "" ∧ r.h2 = "" ∧ r.content = ""

/-- In-memory checkpoint as returned by `load_checkpoint`:
`{'last_index': …, 'processed_urls': …}`. The Python set of processed urls is
modelled as a list used only through membership. -/
structure Checkpoint where
  last_index : Nat
  processed_urls : List String
deriving Repr, DecidableEq

/-- The serialized checkpoint record, including the timestamp written by
`save_checkpoint`. -/
structure CheckpointData where
  last_index : Nat
  processed_urls : List String
  timestamp : String
deriving Repr, DecidableEq

/-- State of the checkpoint file on disk. -/
inductive CkptFile where
  | missing
  | corrupt
  | valid (data : CheckpointData)
deriving Repr, DecidableEq

/-- State of the results file on disk. -/
inductive SinkFile where
  | missing
  | corrupt
  | valid (records : List Result)
deriving Repr, DecidableEq

/-- Reading the results file tolerating absence or parse failure as `[]`
(both engines wrap the read in try/except). -/
def readSink : SinkFile → List Result
  | .missing => []
  | .corrupt => []
  | .valid rs => rs

/-- Outcome of a file write attempt. -/
inductive WriteOutcome where
  | ok
  | fail (msg : String)
deriving Repr, DecidableEq

/-- Durable-write events of a run, in program order: a Result Sink append
(`append_results` / `save_results` with a non-empty buffer) or a Checkpoint
save (`save_checkpoint`, recording the index and processed set passed). -/
inductive Event where
  | sinkAppend (results : List Result)
  | ckptSave (last_index : Nat) (processed : List String)
deriving Repr, DecidableEq

/-- The checkpoint indices of a trace, in order of the save calls. -/
def ckptIndices (events : List Event) : List Nat :=
  events.filterMap fun e =>
    match e with
    | .ckptSave n _ => some n
    | _ => none

/-- The buffers flushed to the Result Sink, in order of the append calls. -/
def sinkPayloads (events : List Event) : List (List Result) :=
  events.filterMap fun e =>
    match e with
    | .sinkAppend rs => some rs
    | _ => none

/-- Scans a trace checking that every sink append is immediately followed by a
checkpoint save: the flag records whether the previous event was a sink
append still awaiting its paired save. -/
def noDanglingAppend : List Event → Bool → Bool
  | [], pending => !pending
  | .sinkAppend _ :: rest, pending => !pending && noDanglingAppend rest true
  | .ckptSave _ _ :: rest, _ => noDanglingAppend rest false

namespace RFB

/-- `load_checkpoint` of `retry_failures_batch.py`: a missing file or any
exception while reading/parsing yields the zero checkpoint. -/
def load_checkpoint : CkptFile → Checkpoint
  | .missing => ⟨0, []⟩
  | .corrupt => ⟨0, []⟩
  | .valid d => ⟨d.last_index, d.processed_urls⟩

/-- Body of `save_checkpoint` before the surrounding try/except: build the
record and write it; a failing write raises. -/
def save_checkpoint_body (last_index : Nat) (processed : List String) (now : String)
    (w : WriteOutcome) : Except String CkptFile :=
  match w with
  | .ok => .ok (.valid ⟨last_index, processed, now⟩)
  | .fail msg => .error msg

/-- `save_checkpoint` of `retry_failures_batch.py`: the whole body is wrapped in
try/except, so a failure is only logged (second component) and never
propagated; on failure the caller's view of the file is unchanged. -/
def save_checkpoint (last_index : Nat) (processed : List String) (now : String)
    (file : CkptFile) (w : WriteOutcome) : CkptFile × Option String :=
  match save_checkpoint_body last_index processed now w with
  | .ok f => (f, none)
  | .error e => (file, some e)

/-- `append_results` of `retry_failures_batch.py`: early return on an empty
batch, otherwise read the existing collection (tolerating missing/corrupt as
empty), extend it and write it back whole. -/
def append_results (results : List Result) (file : SinkFile) : SinkFile :=
  if results.isEmpty then file
  else .valid (readSink file ++ results)

/-- The polling loop of `wait_for_cloudflare_clear` in
`retry_failures_batch.py`: sleeps 3 seconds per challenged poll and never
issues a refresh. Fuel as in `RF.waitLoop`: with initial fuel = `timeout` the
zero-fuel case is reached only with `t = 3 * timeout ≥ timeout`, matching the
source's `False` return. -/
def waitLoop (challenged : Nat → Bool) (timeout : Nat) : Nat → Nat → Bool × Nat
  | 0, t => (false, t)
  | fuel + 1, t =>
    if t < timeout then
      if challenged t then waitLoop challenged timeout fuel (t + 3)
      else (true, t)
    else (false, t)

/-- `wait_for_cloudflare_clear` of `retry_failures_batch.py` (default timeout
30, the only timeout used by its caller). -/
def wait_for_cloudflare_clear (challenged : Nat → Bool) (timeout : Nat) :
    Bool × Nat :=
  waitLoop challenged timeout timeout 0

/-- Behaviour of the rendered page for one item of the batch engine, as
observed through its single extraction attempt: the navigation or body-wait
raises, the Cloudflare challenge never clears within the wait timeout, or the
page renders and the three bounded field lookups yield the given strings
(`""` when the element is not found — field absence is caught per lookup and
is not an error). -/
inductive PageOutcome where
  | navError (msg : String)
  | cfChallenged
  | loaded (h1 h2 content : String)
deriving Repr, DecidableEq

/-- `extract_url_data` of `retry_failures_batch.py`: any exception yields an
all-empty record carrying the exception message; an uncleared challenge yields
an all-empty record with error "Cloudflare timeout"; otherwise the three field
lookups are stripped and returned with no error entry. -/
def extract_url_data (url : String) (page : PageOutcome) : Result :=
  match page with
  | .navError msg => ⟨url, "", "", "", some msg, none⟩
  | .cfChallenged => ⟨url, "", "", "", some "Cloudflare timeout", none⟩
  | .loaded h1 h2 content => ⟨url, strip h1, strip h2, strip content, none, none⟩

/-- Behaviour of one work-list position in the batch engine's main loop:
either `create_driver()` raises (caught by the per-item except branch), or a
fresh session is created and `extract_url_data` observes the given page
outcome. -/
inductive ItemBehavior where
  | driverFail (msg : String)
  | page (outcome : PageOutcome)

/-- Configuration surface of the batch engine plus the oracles for the
environment: `behavior` maps a work-list position to its item behaviour and
`clock` gives the timestamp string of the k-th checkpoint save. The source
fixes `batchSize = 100` and `saveInterval = 5`; they are module constants,
kept as parameters here. -/
structure Config where
  batchSize : Nat
  saveInterval : Nat
  behavior : Nat → ItemBehavior
  clock : Nat → String

/-- In-memory state of the batch main loop, together with the disk files it
writes, the durable-event trace, and the session-identity instrumentation
(`nextSession` is the number of `create_driver()` calls made so far;
`itemSessions` records the session acquired by each non-skipped item). -/
structure BatchState where
  successful : Nat
  failed : Nat
  buffer : List Result
  processed : List String
  sink : SinkFile
  ckpt : CkptFile
  events : List Event
  nextSession : Nat
  itemSessions : List Nat
  savesDone : Nat
deriving Repr

/-- The record buffered by the batch engine's per-item except branch. -/
def errorRecord (url msg : String) : Result := ⟨url, "", "", "", some msg, none⟩

/-- One save-interval flush: `append_results(buffer)` then
`save_checkpoint(start_index + idx, processed_urls)`, then the buffer is
cleared. -/
def flushState (cfg : Config) (wOk : Nat → WriteOutcome) (saveIdx : Nat)
    (s : BatchState) (buf : List Result) (proc : List String) : BatchState :=
  { successful := s.successful, failed := s.failed, buffer := [],
    processed := proc, sink := append_results buf s.sink,
    ckpt := (save_checkpoint saveIdx proc (cfg.clock s.savesDone) s.ckpt (wOk s.savesDone)).1,
    events := s.events ++ [.sinkAppend buf, .ckptSave saveIdx proc],
    nextSession := s.nextSession, itemSessions := s.itemSessions,
    savesDone := s.savesDone + 1 }

/-- One iteration of the batch main loop for the item at 1-based batch index
`done + 1` (so list position `startIndex + done`, and a flush saves index
`start_index + idx = startIndex + done + 1`): skip if already processed, else
create a fresh driver, extract, classify by `isSuccessRecord`, buffer, mark
processed, and flush when the buffer reaches the save interval. The except
branch (driver-creation failure) buffers an error record and marks the url
processed without checking the save interval, exactly as the source does. -/
def processItem (cfg : Config) (wOk : Nat → WriteOutcome) (startIndex done : Nat)
    (url : String) (s : BatchState) : BatchState :=
  if url ∈ s.processed then s
  else
    match cfg.behavior (startIndex + done) with
    | .driverFail msg =>
        { s with failed := s.failed + 1,
                 buffer := s.buffer ++ [errorRecord url msg],
                 processed := s.processed.insert url }
    | .page pg =>
        let data := extract_url_data url pg
        let s1 := { s with nextSession := s.nextSession + 1,
                           itemSessions := s.itemSessions ++ [s.nextSession] }
        let s2 := if isSuccessRecord data then { s1 with successful := s1.successful + 1 }
                  else { s1 with failed := s1.failed + 1 }
        let buf := s2.buffer ++ [data]
        let proc := s2.processed.insert url
        if cfg.saveInterval ≤ buf.length then
          flushState cfg wOk (startIndex + done + 1) s2 buf proc
        else
          { s2 with buffer := buf, processed := proc }

/-- The batch main loop over the batch slice; `done` counts consumed items. -/
def runLoop (cfg : Config) (wOk : Nat → WriteOutcome) (startIndex : Nat) :
    List String → Nat → BatchState → BatchState
  | [], _, s => s
  | url :: rest, done, s =>
      runLoop cfg wOk startIndex rest (done + 1) (processItem cfg wOk startIndex done url s)

/-- What one invocation of the batch engine reports and leaves behind.
`batchCount` is `len(batch_urls)` (the "Total processed in batch" line). -/
structure RunReport where
  successful : Nat
  failed : Nat
  events : List Event
  sink : SinkFile
  ckpt : CkptFile
  processed : List String
  itemSessions : List Nat
  batchCount : Nat
deriving Repr, DecidableEq

/-- End of a batch run: flush the remaining buffer if non-empty (`if buffer:`),
save the final checkpoint at `end_index` unconditionally, and report. -/
def finishRun (cfg : Config) (wOk : Nat → WriteOutcome) (endIndex batchCount : Nat)
    (s1 : BatchState) : RunReport :=
  let s2 := if s1.buffer.isEmpty then s1
            else { s1 with sink := append_results s1.buffer s1.sink,
                           events := s1.events ++ [.sinkAppend s1.buffer],
                           buffer := [] }
  let fin := save_checkpoint endIndex s2.processed (cfg.clock s2.savesDone) s2.ckpt
      (wOk s2.savesDone)
  ⟨s2.successful, s2.failed, s2.events ++ [.ckptSave endIndex s2.processed],
   s2.sink, fin.1, s2.processed, s2.itemSessions, batchCount⟩

/-- `main` of `retry_failures_batch.py`: load the checkpoint; if the last index
is already past the end of the work list, report nothing to do; otherwise
process the slice `[start_index, min(start_index + BATCH_SIZE, total))`,
then flush and checkpoint via `finishRun`. -/
def main (cfg : Config) (wOk : Nat → WriteOutcome) (allUrls : List String)
    (sink0 : SinkFile) (ckpt0 : CkptFile) : RunReport :=
  let checkpoint := load_checkpoint ckpt0
  let startIndex := checkpoint.last_index
  let total := allUrls.length
  if total ≤ startIndex then
    ⟨0, 0, [], sink0, ckpt0, checkpoint.processed_urls, [], 0⟩
  else
    let endIndex := min (startIndex + cfg.batchSize) total
    let batchUrls := (allUrls.drop startIndex).take (endIndex - startIndex)
    let s0 : BatchState := ⟨0, 0, [], checkpoint.processed_urls, sink0, ckpt0, [], 0, [], 0⟩
    finishRun cfg wOk endIndex batchUrls.length (runLoop cfg wOk startIndex batchUrls 0 s0)

/-- Everything of a loop state except the checkpoint-file contents (claim C10
asserts the run is insensitive to checkpoint-write outcomes in exactly these
components). -/
def BatchState.core (s : BatchState) :
    Nat × Nat × List Result × List String × SinkFile × List Event × Nat × List Nat × Nat :=
  (s.successful, s.failed, s.buffer, s.processed, s.sink, s.events, s.nextSession,
   s.itemSessions, s.savesDone)

/-- Everything of a run report except the checkpoint-file contents. -/
def RunReport.core (r : RunReport) :
    Nat × Nat × List Event × SinkFile × List String × List Nat × Nat :=
  (r.successful, r.failed, r.events, r.sink, r.processed, r.itemSessions, r.batchCount)

end RFB

namespace RF

/-- `save_results` of `retry_failures.py`: read existing (missing/corrupt as
empty), extend, write back. Unlike the batch variant there is no empty-batch
early return. -/
def save_results (results : List Result) (file : SinkFile) : SinkFile :=
  .valid (readSink file ++ results)

/-- The polling loop of `wait_for_cloudflare_clear` in `retry_failures.py`.
Time advances only in `time.sleep(5)`; `challenged t` says whether any
Cloudflare keyword matches the lower-cased title or page source at time `t`;
`refreshRaises k` says whether the k-th `driver.refresh()` call raises (the
call sits in a try/except and `already_refreshed` is set only after a call
that did not raise). `calls` collects the poll times at which a refresh call
was issued. Returns (cleared?, elapsed seconds, refresh call times). The fuel
argument only bounds the recursion: each iteration advances `t` by 5, so with
initial fuel = `timeout` the zero-fuel case is reached only with
`t = 5 * timeout ≥ timeout`, where the loop condition fails and the source
returns `False` as well. -/
def waitLoop (challenged refreshRaises : Nat → Bool) (timeout : Nat) :
    Nat → Nat → Bool → List Nat → Bool × Nat × List Nat
  | 0, t, _, calls => (false, t, calls)
  | fuel + 1, t, refreshed, calls =>
    if t < timeout then
      if challenged t then
        if refreshed then
          waitLoop challenged refreshRaises timeout fuel (t + 5) true calls
        else
          waitLoop challenged refreshRaises timeout fuel (t + 5)
            (!refreshRaises calls.length) (calls ++ [t])
      else (true, t, calls)
    else (false, t, calls)

/-- `wait_for_cloudflare_clear` of `retry_failures.py` (default timeout 45,
the only timeout used by its caller). -/
def wait_for_cloudflare_clear (challenged refreshRaises : Nat → Bool)
    (timeout : Nat) : Bool × Nat × List Nat :=
  waitLoop challenged refreshRaises timeout timeout 0 false []

/-- Behaviour of one attempt of the v1 per-item retry loop: the attempt body
raises (navigation timeout, challenge timeout re-raised as
`TimeoutException`, or any other exception caught by the attempt-level
except), or the page renders and the field lookups yield the given strings
(field absence caught per lookup, yielding `""`). -/
inductive Attempt1 where
  | raiseExc (msg : String)
  | ok (h1 h2 content : String)
deriving Repr

/-- The attempt loop of `extract_url_data` in `retry_failures.py`. All
attempts reuse the one driver `sid` that `main` created for the item; the log
records the session used by each attempt that ran. When every attempt raises,
the loop falls through and returns an all-empty record with NO error entry.
Structural fuel = remaining attempts; `k` is the 0-based attempt number. -/
def extractLoop (url : String) (sid : Nat) (attempts : Nat → Attempt1) :
    Nat → Nat → List Nat → Result × List Nat
  | 0, _, log => (⟨url, "", "", "", none, none⟩, log)
  | fuel + 1, k, log =>
    match attempts k with
    | .ok h1 h2 content =>
        (⟨url, strip h1, strip h2, strip content, none, none⟩, log ++ [sid])
    | .raiseExc _ => extractLoop url sid attempts fuel (k + 1) (log ++ [sid])

/-- `extract_url_data` of `retry_failures.py` with its default
`max_retries = 5`, the value used by its only caller. -/
def extract_url_data (url : String) (sid : Nat) (attempts : Nat → Attempt1) :
    Result × List Nat :=
  extractLoop url sid attempts 5 0 []

/-- Behaviour of one item of the v1 main loop: `create_driver()` raises
(caught by the per-item except branch), or a fresh session is created and the
retry loop observes the given per-attempt behaviours. -/
inductive ItemBehavior where
  | driverFail (msg : String)
  | session (attempts : Nat → Attempt1)

/-- In-memory state of the v1 main loop: counters, the in-memory batch
buffer, the results file, the sink-append trace, and session instrumentation:
`sessions` records, per processed item, the session id created for it and the
session used by each of its attempts. -/
structure V1State where
  successful : Nat
  still_failed : Nat
  batch : List Result
  sink : SinkFile
  events : List Event
  nextSession : Nat
  sessions : List (Nat × List Nat)
deriving Repr

/-- The record buffered by the v1 per-item except branch (it carries an
`extracted_at` timestamp). -/
def errorRecord (url msg ts : String) : Result := ⟨url, "", "", "", some msg, some ts⟩

/-- One iteration of the v1 main loop for the item at 0-based index `i` of the
remaining list: create a driver (one per item; its failure is the except
branch), run the retry loop, classify by `isSuccessRecord`, stamp
`extracted_at`, buffer, and flush via `save_results` when the buffer reaches
`BATCH_SIZE = 10`. -/
def processItem (behavior : Nat → ItemBehavior) (clockItem : Nat → String)
    (i : Nat) (url : String) (s : V1State) : V1State :=
  match behavior i with
  | .driverFail msg =>
      { s with still_failed := s.still_failed + 1,
               batch := s.batch ++ [errorRecord url msg (clockItem i)] }
  | .session attempts =>
      let sid := s.nextSession
      let res := extract_url_data url sid attempts
      let data := { res.1 with extractedAt := some (clockItem i) }
      let s1 := { s with nextSession := sid + 1,
                         sessions := s.sessions ++ [(sid, res.2)] }
      let s2 := if isSuccessRecord data then { s1 with successful := s1.successful + 1 }
                else { s1 with still_failed := s1.still_failed + 1 }
      let batch' := s2.batch ++ [data]
      if 10 ≤ batch'.length then
        { s2 with batch := [], sink := save_results batch' s2.sink,
                  events := s2.events ++ [.sinkAppend batch'] }
      else
        { s2 with batch := batch' }

/-- The v1 main loop over the remaining urls; `i` is the 0-based index. -/
def runLoop (behavior : Nat → ItemBehavior) (clockItem : Nat → String) :
    List String → Nat → V1State → V1State
  | [], _, s => s
  | url :: rest, i, s =>
      runLoop behavior clockItem rest (i + 1) (processItem behavior clockItem i url s)

/-- `load_existing_results` of `retry_failures.py`: the urls of the persisted
records that have a non-empty url, a missing/corrupt file reading as none. -/
def load_existing_results (file : SinkFile) : List String :=
  (readSink file).filterMap fun r => if r.url = "" then none else some r.url

/-- What one invocation of the v1 engine reports and leaves behind. -/
structure V1Report where
  successful : Nat
  still_failed : Nat
  sink : SinkFile
  events : List Event
  sessions : List (Nat × List Nat)
  remainingCount : Nat
deriving Repr, DecidableEq

/-- `main` of `retry_failures.py`: return early on an empty work list or when
every url already appears in the results file; otherwise process the
remaining urls in order and flush any final partial batch. -/
def main (behavior : Nat → ItemBehavior) (clockItem : Nat → String)
    (failedUrls : List String) (sink0 : SinkFile) : V1Report :=
  if failedUrls.isEmpty then ⟨0, 0, sink0, [], [], 0⟩
  else
    let processed := load_existing_results sink0
    let remaining := failedUrls.filter fun u => !(processed.contains u)
    if remaining.isEmpty then ⟨0, 0, sink0, [], [], 0⟩
    else
      let s := runLoop behavior clockItem remaining 0 ⟨0, 0, [], sink0, [], 0, []⟩
      let s2 := if s.batch.isEmpty then s
                else { s with sink := save_results s.batch s.sink,
                              events := s.events ++ [.sinkAppend s.batch],
                              batch := [] }
      ⟨s2.successful, s2.still_failed, s2.sink, s2.events, s2.sessions, remaining.length⟩

end RF

namespace CheckStatus

/-- `load_checkpoint` of `check_status.py`: returns the zero checkpoint when the
file is absent, but performs `json.load` with no exception handling, so an
unparseable file raises `JSONDecodeError` to the caller. -/
def load_checkpoint : CkptFile → Except String Checkpoint
  | .missing => .ok ⟨0, []⟩
  | .corrupt => .error "JSONDecodeError"
  | .valid d => .ok ⟨d.last_index, d.processed_urls⟩

/-- `count_success_failure` of `check_status.py`. -/
def count_success_failure (results : List Result) : Nat × Nat :=
  let successful := (results.filter isSuccessRecord).length
  (successful, results.length - successful)

end CheckStatus

/-! ## Shape of one batch-loop iteration -/

/-- `RFB.processItem` does exactly one of four things: skip an
already-processed url; buffer an error record on driver failure; extract and
buffer without flushing; or extract, buffer and flush (sink append followed by
checkpoint save at index `startIndex + done + 1`). -/
theorem RFB.processItem_char (cfg : RFB.Config) (w : Nat → WriteOutcome) (st done : Nat)
    (url : String) (s : RFB.BatchState) :
    RFB.processItem cfg w st done url s = s ∨
    (∃ msg, RFB.processItem cfg w st done url s =
      ⟨s.successful, s.failed + 1, s.buffer ++ [RFB.errorRecord url msg],
       s.processed.insert url, s.sink, s.ckpt, s.events, s.nextSession,
       s.itemSessions, s.savesDone⟩) ∨
    (∃ pg suc fl, RFB.processItem cfg w st done url s =
      ⟨suc, fl, s.buffer ++ [RFB.extract_url_data url pg], s.processed.insert url,
       s.sink, s.ckpt, s.events, s.nextSession + 1, s.itemSessions ++ [s.nextSession],
       s.savesDone⟩) ∨
    (∃ pg suc fl, RFB.processItem cfg w st done url s =
      ⟨suc, fl, [], s.processed.insert url,
       RFB.append_results (s.buffer ++ [RFB.extract_url_data url pg]) s.sink,
       (RFB.save_checkpoint (st + done + 1) (s.processed.insert url)
         (cfg.clock s.savesDone) s.ckpt (w s.savesDone)).1,
       s.events ++ [.sinkAppend (s.buffer ++ [RFB.extract_url_data url pg]),
         .ckptSave (st + done + 1) (s.processed.insert url)],
       s.nextSession + 1, s.itemSessions ++ [s.nextSession], s.savesDone + 1⟩) := by
  unfold RFB.processItem
  split
  · exact Or.inl rfl
  · split
    · rename_i msg _
      exact Or.inr (Or.inl ⟨msg, rfl⟩)
    · rename_i pg _
      dsimp only
      split
      · split
        · refine Or.inr (Or.inr (Or.inr ⟨pg, s.successful + 1, s.failed, ?_⟩))
          unfold RFB.flushState
          rfl
        · exact Or.inr (Or.inr (Or.inl ⟨pg, s.successful + 1, s.failed, rfl⟩))
      · split
        · refine Or.inr (Or.inr (Or.inr ⟨pg, s.successful, s.failed + 1, ?_⟩))
          unfold RFB.flushState
          rfl
        · exact Or.inr (Or.inr (Or.inl ⟨pg, s.successful, s.failed + 1, rfl⟩))

/-- Induction along the batch main loop. -/
theorem RFB.runLoop_ind (cfg : RFB.Config) (w : Nat → WriteOutcome) (st : Nat)
    (P : Nat → RFB.BatchState → Prop)
    (step : ∀ done url s, P done s → P (done + 1) (RFB.processItem cfg w st done url s)) :
    ∀ urls done s, P done s →
      P (done + urls.length) (RFB.runLoop cfg w st urls done s) := by
  intro urls
  induction urls with
  | nil => intro done s h; simpa using h
  | cons u rest ih =>
    intro done s h
    simp only [RFB.runLoop, List.length_cons]
    have harith : done + (rest.length + 1) = done + 1 + rest.length := by omega
    rw [harith]
    exact ih (done + 1) _ (step done u s h)

theorem ckptIndices_append (l₁ l₂ : List Event) :
    ckptIndices (l₁ ++ l₂) = ckptIndices l₁ ++ ckptIndices l₂ := by
  simp [ckptIndices, List.filterMap_append]

theorem sinkPayloads_append (l₁ l₂ : List Event) :
    sinkPayloads (l₁ ++ l₂) = sinkPayloads l₁ ++ sinkPayloads l₂ := by
  simp [sinkPayloads, List.filterMap_append]

theorem RFB.finishRun_events (cfg : RFB.Config) (w : Nat → WriteOutcome)
    (e bc : Nat) (s : RFB.BatchState) :
    (RFB.finishRun cfg w e bc s).events =
      s.events ++ (if s.buffer.isEmpty then [Event.ckptSave e s.processed]
        else [.sinkAppend s.buffer, .ckptSave e s.processed]) := by
  unfold RFB.finishRun
  dsimp only
  split <;> rename_i hb <;> simp [hb]

theorem RFB.finishRun_ckptIndices (cfg : RFB.Config) (w : Nat → WriteOutcome)
    (e bc : Nat) (s : RFB.BatchState) :
    ckptIndices (RFB.finishRun cfg w e bc s).events = ckptIndices s.events ++ [e] := by
  unfold RFB.finishRun
  dsimp only
  split
  · rw [ckptIndices_append]; rfl
  · rw [ckptIndices_append, ckptIndices_append]; simp [ckptIndices]

theorem RFB.finishRun_sinkPayloads (cfg : RFB.Config) (w : Nat → WriteOutcome)
    (e bc : Nat) (s : RFB.BatchState) :
    sinkPayloads (RFB.finishRun cfg w e bc s).events =
      sinkPayloads s.events ++ (if s.buffer.isEmpty then [] else [s.buffer]) := by
  unfold RFB.finishRun
  dsimp only
  split
  · rename_i hb
    rw [sinkPayloads_append]
    simp [hb, sinkPayloads]
  · rename_i hb
    rw [sinkPayloads_append, sinkPayloads_append]
    simp [hb, sinkPayloads]

/-! ## Claim C1: resumable duplicate-skip scenario -/

/-- Claim C1: on the work list `["a","b","a"]` with batch size 2 and save
interval 2 (all extractions rendering a page with a non-empty h1), the first
run processes positions 0 and 1 (two sessions created), flushes, and saves a
checkpoint with lastIndex 2 and processedIds {a, b}; a second run given that
checkpoint considers only position 2 (batch of one url) and, since "a" is in
processedIds, skips it without creating a session or invoking extraction,
reports 0 successful and 0 failed, and the saved checkpoint advances to
lastIndex 3. -/
theorem C1_resume_duplicate_skip :
    (RFB.main ⟨2, 2, fun _ => .page (.loaded "x" "" ""), fun _ => ""⟩ (fun _ => .ok)
        ["a", "b", "a"] .missing .missing).successful = 2 ∧
    (RFB.main ⟨2, 2, fun _ => .page (.loaded "x" "" ""), fun _ => ""⟩ (fun _ => .ok)
        ["a", "b", "a"] .missing .missing).itemSessions = [0, 1] ∧
    (RFB.main ⟨2, 2, fun _ => .page (.loaded "x" "" ""), fun _ => ""⟩ (fun _ => .ok)
        ["a", "b", "a"] .missing .missing).events =
      [.sinkAppend [⟨"a", "x", "", "", none, none⟩, ⟨"b", "x", "", "", none, none⟩],
       .ckptSave 2 ["b", "a"], .ckptSave 2 ["b", "a"]] ∧
    (RFB.main ⟨2, 2, fun _ => .page (.loaded "x" "" ""), fun _ => ""⟩ (fun _ => .ok)
        ["a", "b", "a"] .missing .missing).ckpt = .valid ⟨2, ["b", "a"], ""⟩ ∧
    (RFB.main ⟨2, 2, fun _ => .page (.loaded "x" "" ""), fun _ => ""⟩ (fun _ => .ok)
        ["a", "b", "a"] .missing
        (.valid ⟨2, ["b", "a"], ""⟩)).batchCount = 1 ∧
    (RFB.main ⟨2, 2, fun _ => .page (.loaded "x" "" ""), fun _ => ""⟩ (fun _ => .ok)
        ["a", "b", "a"] .missing
        (.valid ⟨2, ["b", "a"], ""⟩)).itemSessions = [] ∧
    (RFB.main ⟨2, 2, fun _ => .page (.loaded "x" "" ""), fun _ => ""⟩ (fun _ => .ok)
        ["a", "b", "a"] .missing
        (.valid ⟨2, ["b", "a"], ""⟩)).successful = 0 ∧
    (RFB.main ⟨2, 2, fun _ => .page (.loaded "x" "" ""), fun _ => ""⟩ (fun _ => .ok)
        ["a", "b", "a"] .missing
        (.valid ⟨2, ["b", "a"], ""⟩)).failed = 0 ∧
    (RFB.main ⟨2, 2, fun _ => .page (.loaded "x" "" ""), fun _ => ""⟩ (fun _ => .ok)
        ["a", "b", "a"] .missing
        (.valid ⟨2, ["b", "a"], ""⟩)).ckpt = .valid ⟨3, ["b", "a"], ""⟩ := by
  decide

/-! ## Claim C6: monotonic checkpoint within a run -/

/-- Claim C6: within any single batch run, the sequence of `last_index` values
passed to the checkpoint saves is non-decreasing (here proved in the stronger
pairwise form, which implies it for consecutive saves). -/
theorem C6_monotonic_checkpoint (cfg : RFB.Config) (w : Nat → WriteOutcome)
    (allUrls : List String) (sink0 : SinkFile) (ckpt0 : CkptFile) :
    List.Pairwise (· ≤ ·) (ckptIndices (RFB.main cfg w allUrls sink0 ckpt0).events) := by
  unfold RFB.main
  dsimp only
  split
  · simp [ckptIndices]
  · rename_i hrem
    rw [RFB.finishRun_ckptIndices]
    set st := (RFB.load_checkpoint ckpt0).last_index with hst
    set e := min (st + cfg.batchSize) allUrls.length with he
    set urls := (allUrls.drop st).take (e - st) with hurls
    have step : ∀ done url s,
        ((∀ n ∈ ckptIndices s.events, n ≤ st + done) ∧
          List.Pairwise (· ≤ ·) (ckptIndices s.events)) →
        ((∀ n ∈ ckptIndices (RFB.processItem cfg w st done url s).events,
            n ≤ st + (done + 1)) ∧
          List.Pairwise (· ≤ ·) (ckptIndices (RFB.processItem cfg w st done url s).events)) := by
      intro done url s hP
      obtain ⟨hb, hp⟩ := hP
      rcases RFB.processItem_char cfg w st done url s with h | ⟨msg, h⟩ |
        ⟨pg, suc, fl, h⟩ | ⟨pg, suc, fl, h⟩ <;> rw [h]
      · exact ⟨fun n hn => by have := hb n hn; omega, hp⟩
      · exact ⟨fun n hn => by have := hb n hn; omega, hp⟩
      · exact ⟨fun n hn => by have := hb n hn; omega, hp⟩
      · constructor
        · intro n hn
          rw [show (⟨suc, fl, [], s.processed.insert url,
                RFB.append_results (s.buffer ++ [RFB.extract_url_data url pg]) s.sink,
                (RFB.save_checkpoint (st + done + 1) (s.processed.insert url)
                  (cfg.clock s.savesDone) s.ckpt (w s.savesDone)).1,
                s.events ++ [.sinkAppend (s.buffer ++ [RFB.extract_url_data url pg]),
                  .ckptSave (st + done + 1) (s.processed.insert url)],
                s.nextSession + 1, s.itemSessions ++ [s.nextSession],
                s.savesDone + 1⟩ : RFB.BatchState).events =
              s.events ++ [.sinkAppend (s.buffer ++ [RFB.extract_url_data url pg]),
                .ckptSave (st + done + 1) (s.processed.insert url)] from rfl,
            ckptIndices_append] at hn
          rcases List.mem_append.mp hn with hn | hn
          · have := hb n hn; omega
          · have : n = st + done + 1 := by
              simpa [ckptIndices] using hn
            omega
        · rw [show (⟨suc, fl, [], s.processed.insert url,
                RFB.append_results (s.buffer ++ [RFB.extract_url_data url pg]) s.sink,
                (RFB.save_checkpoint (st + done + 1) (s.processed.insert url)
                  (cfg.clock s.savesDone) s.ckpt (w s.savesDone)).1,
                s.events ++ [.sinkAppend (s.buffer ++ [RFB.extract_url_data url pg]),
                  .ckptSave (st + done + 1) (s.processed.insert url)],
                s.nextSession + 1, s.itemSessions ++ [s.nextSession],
                s.savesDone + 1⟩ : RFB.BatchState).events =
              s.events ++ [.sinkAppend (s.buffer ++ [RFB.extract_url_data url pg]),
                .ckptSave (st + done + 1) (s.processed.insert url)] from rfl,
            ckptIndices_append]
          refine List.pairwise_append.mpr ⟨hp, by simp [ckptIndices], ?_⟩
          intro a ha b hbmem
          have hb' : b = st + done + 1 := by simpa [ckptIndices] using hbmem
          have := hb a ha
          omega
    have hloop := RFB.runLoop_ind cfg w st
      (fun done s => (∀ n ∈ ckptIndices s.events, n ≤ st + done) ∧
        List.Pairwise (· ≤ ·) (ckptIndices s.events))
      step urls 0 ⟨0, 0, [], (RFB.load_checkpoint ckpt0).processed_urls,
        sink0, ckpt0, [], 0, [], 0⟩ (by simp [ckptIndices])
    obtain ⟨hbnd, hpw⟩ := hloop
    have hlen : st + (0 + urls.length) ≤ e := by
      rw [hurls]
      simp only [List.length_take, List.length_drop]
      omega
    refine List.pairwise_append.mpr ⟨hpw, List.pairwise_singleton _ _, ?_⟩
    intro a ha b hbmem
    have hb' : b = e := by simpa using hbmem
    have := hbnd a ha
    omega

/-! ## Claim C8: flush ordering (sink append before checkpoint save) -/

theorem noDanglingAppend_concat :
    ∀ (l₁ : List Event) (f : Bool) (l₂ : List Event),
      noDanglingAppend l₁ f = true → noDanglingAppend l₂ false = true →
      noDanglingAppend (l₁ ++ l₂) f = true := by
  intro l₁
  induction l₁ with
  | nil =>
    intro f l₂ h1 h2
    have : f = false := by
      cases f
      · rfl
      · exact absurd h1 (by simp [noDanglingAppend])
    subst this
    simpa using h2
  | cons ev rest ih =>
    intro f l₂ h1 h2
    cases ev with
    | sinkAppend rs =>
      simp only [noDanglingAppend, Bool.and_eq_true, Bool.not_eq_true'] at h1
      obtain ⟨hf, hrest⟩ := h1
      subst hf
      simp only [List.cons_append, noDanglingAppend, Bool.not_false, Bool.true_and]
      exact ih true l₂ hrest h2
    | ckptSave n p =>
      simp only [noDanglingAppend] at h1
      simp only [List.cons_append, noDanglingAppend]
      exact ih false l₂ h1 h2

/-- Claim C8: in every flush of a batch run — the save-interval flushes and the
final flush — the Result Sink append comes immediately before its paired
checkpoint save; the trace never contains a sink append not followed by a
checkpoint save. -/
theorem C8_flush_ordering (cfg : RFB.Config) (w : Nat → WriteOutcome)
    (allUrls : List String) (sink0 : SinkFile) (ckpt0 : CkptFile) :
    noDanglingAppend (RFB.main cfg w allUrls sink0 ckpt0).events false = true := by
  unfold RFB.main
  dsimp only
  split
  · rfl
  · rw [RFB.finishRun_events]
    set st := (RFB.load_checkpoint ckpt0).last_index with hst
    set e := min (st + cfg.batchSize) allUrls.length with he
    set urls := (allUrls.drop st).take (e - st) with hurls
    have step : ∀ done url s,
        noDanglingAppend s.events false = true →
        noDanglingAppend (RFB.processItem cfg w st done url s).events false = true := by
      intro done url s hP
      rcases RFB.processItem_char cfg w st done url s with h | ⟨msg, h⟩ |
        ⟨pg, suc, fl, h⟩ | ⟨pg, suc, fl, h⟩ <;> rw [h]
      · exact hP
      · exact hP
      · exact hP
      · exact noDanglingAppend_concat s.events false _ hP rfl
    have hloop := RFB.runLoop_ind cfg w st
      (fun _ s => noDanglingAppend s.events false = true) (fun done url s => step done url s)
      urls 0 ⟨0, 0, [], (RFB.load_checkpoint ckpt0).processed_urls,
        sink0, ckpt0, [], 0, [], 0⟩ rfl
    refine noDanglingAppend_concat _ false _ hloop ?_
    split <;> rfl

/-! ## Challenge-wait lemmas (claim C2) -/

theorem RF.waitLoop_false {challenged refreshRaises : Nat → Bool} {timeout : Nat}
    (hc : ∀ t, challenged t = true) :
    ∀ fuel t refreshed calls,
      (RF.waitLoop challenged refreshRaises timeout fuel t refreshed calls).1 = false := by
  intro fuel
  induction fuel with
  | zero => intro t r calls; rfl
  | succ f ih =>
    intro t r calls
    simp only [RF.waitLoop, hc, if_true]
    split
    · cases r <;> exact ih _ _ _
    · rfl

theorem RF.waitLoop_elapsed {challenged refreshRaises : Nat → Bool} {timeout : Nat}
    (hc : ∀ t, challenged t = true) :
    ∀ fuel m t refreshed calls, timeout = t + 5 * m → m ≤ fuel →
      (RF.waitLoop challenged refreshRaises timeout fuel t refreshed calls).2.1 = timeout := by
  intro fuel
  induction fuel with
  | zero =>
    intro m t r calls hm hle
    have : m = 0 := Nat.le_zero.mp hle
    subst this
    simp only [RF.waitLoop]
    omega
  | succ f ih =>
    intro m t r calls hm hle
    cases m with
    | zero =>
      have ht : ¬ t < timeout := by omega
      simp only [RF.waitLoop, if_neg ht]
      omega
    | succ m' =>
      have ht : t < timeout := by omega
      simp only [RF.waitLoop, if_pos ht, hc, if_true]
      cases r with
      | true => exact ih m' (t + 5) true calls (by omega) (by omega)
      | false => exact ih m' (t + 5) _ _ (by omega) (by omega)

theorem RF.waitLoop_refreshed_calls {challenged refreshRaises : Nat → Bool}
    {timeout : Nat} (hc : ∀ t, challenged t = true) :
    ∀ fuel t calls,
      (RF.waitLoop challenged refreshRaises timeout fuel t true calls).2.2 = calls := by
  intro fuel
  induction fuel with
  | zero => intro t calls; rfl
  | succ f ih =>
    intro t calls
    simp only [RF.waitLoop, hc, if_true]
    split
    · exact ih _ _
    · rfl

theorem RF.waitLoop_once {challenged refreshRaises : Nat → Bool} {timeout : Nat}
    (hc : ∀ t, challenged t = true) :
    ∀ fuel t calls, t < timeout → refreshRaises calls.length = false → fuel ≠ 0 →
      (RF.waitLoop challenged refreshRaises timeout fuel t false calls).2.2 = calls ++ [t] := by
  intro fuel
  cases fuel with
  | zero => intro t calls _ _ h; exact absurd rfl h
  | succ f =>
    intro t calls ht hr _
    simp only [RF.waitLoop, if_pos ht, hc, if_true, Bool.false_eq_true, if_false, hr,
      Bool.not_false]
    exact RF.waitLoop_refreshed_calls hc f (t + 5) (calls ++ [t])

theorem RF.waitLoop_raise_inv {challenged refreshRaises : Nat → Bool} {timeout : Nat}
    (hc : ∀ t, challenged t = true) :
    ∀ fuel t refreshed calls,
      (refreshed = false → ∀ i, i < calls.length → refreshRaises i = true) →
      (∀ i, i + 1 < calls.length → refreshRaises i = true) →
      ∀ i, i + 1 < (RF.waitLoop challenged refreshRaises timeout fuel t refreshed calls).2.2.length →
        refreshRaises i = true := by
  intro fuel
  induction fuel with
  | zero => intro t r calls _ h2 i hi; exact h2 i hi
  | succ f ih =>
    intro t r calls h1 h2
    simp only [RF.waitLoop, hc, if_true]
    split
    · cases r with
      | true =>
        exact ih (t + 5) true calls (fun h => Bool.noConfusion h) h2
      | false =>
        refine ih (t + 5) _ (calls ++ [t]) ?_ ?_
        · intro h i hi
          rw [List.length_append, List.length_singleton] at hi
          rcases Nat.lt_succ_iff_lt_or_eq.mp hi with h' | h'
          · exact h1 rfl i h'
          · subst h'
            cases hr : refreshRaises calls.length with
            | true => rfl
            | false => rw [hr] at h; exact Bool.noConfusion h
        · intro i hi
          rw [List.length_append, List.length_singleton] at hi
          exact h1 rfl i (by omega)
    · intro i hi
      exact h2 i hi

theorem RFB.waitLoopB_false {challenged : Nat → Bool} {timeout : Nat}
    (hc : ∀ t, challenged t = true) :
    ∀ fuel t, (RFB.waitLoop challenged timeout fuel t).1 = false := by
  intro fuel
  induction fuel with
  | zero => intro t; rfl
  | succ f ih =>
    intro t
    simp only [RFB.waitLoop, hc, if_true]
    split
    · exact ih _
    · rfl

theorem RFB.waitLoopB_elapsed {challenged : Nat → Bool} {timeout : Nat}
    (hc : ∀ t, challenged t = true) :
    ∀ fuel m t, timeout = t + 3 * m → m ≤ fuel →
      (RFB.waitLoop challenged timeout fuel t).2 = timeout := by
  intro fuel
  induction fuel with
  | zero =>
    intro m t hm hle
    have : m = 0 := Nat.le_zero.mp hle
    subst this
    simp only [RFB.waitLoop]
    omega
  | succ f ih =>
    intro m t hm hle
    cases m with
    | zero =>
      have ht : ¬ t < timeout := by omega
      simp only [RFB.waitLoop, if_neg ht]
      omega
    | succ m' =>
      have ht : t < timeout := by omega
      simp only [RFB.waitLoop, if_pos ht, hc, if_true]
      exact ih m' (t + 3) (by omega) (by omega)

/-! ## Claim C2: challenge-wait bound and one-shot refresh -/

/-- Claim C2 counterexample: the claim says `wait_for_cloudflare_clear` issues
at most one refresh call per item on an always-challenged session. In
`retry_failures.py`, `already_refreshed` is set only when `driver.refresh()`
does not raise, so on a session whose refresh call always raises the loop
issues a refresh call at every one of the nine detections within the caller's
45-second timeout. -/
theorem C2_counterexample :
    (RF.wait_for_cloudflare_clear (fun _ => true) (fun _ => true) 45).2.2 =
      [0, 5, 10, 15, 20, 25, 30, 35, 40] ∧
    ¬ (RF.wait_for_cloudflare_clear (fun _ => true) (fun _ => true) 45).2.2.length ≤ 1 := by
  decide

/-- Claim C2, amended: on a render session whose title or markup always matches
a challenge phrase, both variants of `wait_for_cloudflare_clear` return false
after exactly the call-site timeout has elapsed (45 s for `retry_failures.py`,
30 s for `retry_failures_batch.py`; time is counted in sleep intervals, and
both timeouts are multiples of their sleep interval). The v1 variant issues
exactly one refresh call — on the first detection — whenever that call does
not raise; a further refresh call is issued only if every earlier refresh
call raised. The batch variant never issues a refresh. -/
theorem C2_challenge_wait (challenged refreshRaises : Nat → Bool)
    (hc : ∀ t, challenged t = true) :
    (RF.wait_for_cloudflare_clear challenged refreshRaises 45).1 = false ∧
    (RF.wait_for_cloudflare_clear challenged refreshRaises 45).2.1 = 45 ∧
    (refreshRaises 0 = false →
      (RF.wait_for_cloudflare_clear challenged refreshRaises 45).2.2 = [0]) ∧
    (∀ i, i + 1 < (RF.wait_for_cloudflare_clear challenged refreshRaises 45).2.2.length →
      refreshRaises i = true) ∧
    (RFB.wait_for_cloudflare_clear challenged 30).1 = false ∧
    (RFB.wait_for_cloudflare_clear challenged 30).2 = 30 := by
  refine ⟨RF.waitLoop_false hc 45 0 false [], ?_, ?_, ?_, RFB.waitLoopB_false hc 30 0, ?_⟩
  · exact RF.waitLoop_elapsed hc 45 9 0 false [] (by norm_num) (by norm_num)
  · intro h0
    have := @RF.waitLoop_once challenged refreshRaises 45 hc 45 0 [] (by norm_num) h0
      (by norm_num)
    simpa using this
  · exact RF.waitLoop_raise_inv hc 45 0 false []
      (fun _ i hi => absurd hi (by simp)) (fun i hi => absurd hi (by simp))
  · exact RFB.waitLoopB_elapsed hc 30 10 0 (by norm_num) (by norm_num)

/-- Witness for `C2_challenge_wait` at the always-challenged session whose
refresh call succeeds. -/
theorem C2_witness :
    (RF.wait_for_cloudflare_clear (fun _ => true) (fun _ => false) 45).1 = false ∧
    (RF.wait_for_cloudflare_clear (fun _ => true) (fun _ => false) 45).2.2 = [0] ∧
    (RFB.wait_for_cloudflare_clear (fun _ => true) 30).2 = 30 := by
  have h := C2_challenge_wait (fun _ => true) (fun _ => false) (fun _ => rfl)
  exact ⟨h.1, h.2.2.1 rfl, h.2.2.2.2.2⟩

/-! ## Shape of one v1-loop iteration -/

/-- `RF.processItem` does exactly one of three things: buffer an error record on
driver failure; extract (one fresh session, up to five attempts on it) and
buffer without flushing; or extract, buffer and flush to the sink. -/
theorem RF.v1Item_char (behavior : Nat → RF.ItemBehavior) (clockItem : Nat → String)
    (i : Nat) (url : String) (s : RF.V1State) :
    (∃ msg, RF.processItem behavior clockItem i url s =
      ⟨s.successful, s.still_failed + 1,
       s.batch ++ [RF.errorRecord url msg (clockItem i)], s.sink, s.events,
       s.nextSession, s.sessions⟩) ∨
    (∃ attempts suc fl, RF.processItem behavior clockItem i url s =
      ⟨suc, fl,
       s.batch ++ [{ (RF.extract_url_data url s.nextSession attempts).1 with
         extractedAt := some (clockItem i) }],
       s.sink, s.events, s.nextSession + 1,
       s.sessions ++ [(s.nextSession, (RF.extract_url_data url s.nextSession attempts).2)]⟩) ∨
    (∃ attempts suc fl, RF.processItem behavior clockItem i url s =
      ⟨suc, fl, [],
       RF.save_results (s.batch ++ [{ (RF.extract_url_data url s.nextSession attempts).1 with
         extractedAt := some (clockItem i) }]) s.sink,
       s.events ++ [.sinkAppend (s.batch ++
         [{ (RF.extract_url_data url s.nextSession attempts).1 with
           extractedAt := some (clockItem i) }])],
       s.nextSession + 1,
       s.sessions ++ [(s.nextSession, (RF.extract_url_data url s.nextSession attempts).2)]⟩) := by
  unfold RF.processItem
  split
  · rename_i msg _
    exact Or.inl ⟨msg, rfl⟩
  · rename_i attempts _
    dsimp only
    split
    · split
      · exact Or.inr (Or.inr ⟨attempts, s.successful + 1, s.still_failed, rfl⟩)
      · exact Or.inr (Or.inl ⟨attempts, s.successful + 1, s.still_failed, rfl⟩)
    · split
      · exact Or.inr (Or.inr ⟨attempts, s.successful, s.still_failed + 1, rfl⟩)
      · exact Or.inr (Or.inl ⟨attempts, s.successful, s.still_failed + 1, rfl⟩)

/-- Induction along the v1 main loop. -/
theorem RF.v1Loop_ind (behavior : Nat → RF.ItemBehavior) (clockItem : Nat → String)
    (P : Nat → RF.V1State → Prop)
    (step : ∀ i url s, P i s → P (i + 1) (RF.processItem behavior clockItem i url s)) :
    ∀ urls i s, P i s → P (i + urls.length) (RF.runLoop behavior clockItem urls i s) := by
  intro urls
  induction urls with
  | nil => intro i s h; simpa using h
  | cons u rest ih =>
    intro i s h
    simp only [RF.runLoop, List.length_cons]
    have harith : i + (rest.length + 1) = i + 1 + rest.length := by omega
    rw [harith]
    exact ih (i + 1) _ (step i u s h)

/-- The v1 attempt loop never sets an error, uses only the item's session, and
makes at most `fuel` attempts. -/
theorem RF.extractLoop_spec (url : String) (sid : Nat) (attempts : Nat → RF.Attempt1) :
    ∀ fuel k log,
      (RF.extractLoop url sid attempts fuel k log).1.error = none ∧
      (∀ x ∈ (RF.extractLoop url sid attempts fuel k log).2, x ∈ log ∨ x = sid) ∧
      (RF.extractLoop url sid attempts fuel k log).2.length ≤ log.length + fuel := by
  intro fuel
  induction fuel with
  | zero =>
    intro k log
    exact ⟨rfl, fun x hx => Or.inl hx, by simp [RF.extractLoop]⟩
  | succ f ih =>
    intro k log
    cases hk : attempts k with
    | ok h1 h2 c =>
      simp only [RF.extractLoop, hk]
      refine ⟨by trivial, ?_, ?_⟩
      · intro x hx
        rcases List.mem_append.mp hx with hx | hx
        · exact Or.inl hx
        · exact Or.inr (by simpa using hx)
      · simp only [List.length_append, List.length_singleton]
        omega
    | raiseExc m =>
      simp only [RF.extractLoop, hk]
      obtain ⟨he, hmem, hlen⟩ := ih (k + 1) (log ++ [sid])
      refine ⟨he, ?_, ?_⟩
      · intro x hx
        rcases hmem x hx with hx' | hx'
        · rcases List.mem_append.mp hx' with h | h
          · exact Or.inl h
          · exact Or.inr (by simpa using h)
        · exact Or.inr hx'
      · simp only [List.length_append, List.length_singleton] at hlen
        omega

/-- `RF.extract_url_data` never sets an error, logs only the item's session,
and makes at most the default five attempts. -/
theorem RF.extract_spec (url : String) (sid : Nat) (attempts : Nat → RF.Attempt1) :
    (RF.extract_url_data url sid attempts).1.error = none ∧
    (∀ x ∈ (RF.extract_url_data url sid attempts).2, x = sid) ∧
    (RF.extract_url_data url sid attempts).2.length ≤ 5 := by
  obtain ⟨he, hmem, hlen⟩ := RF.extractLoop_spec url sid attempts 5 0 []
  refine ⟨he, ?_, by simpa using hlen⟩
  intro x hx
  rcases hmem x hx with h | h
  · exact absurd h (List.not_mem_nil x)
  · exact h

/-- What `RF.main` leaves in its report: nothing happened, or it ran the loop
on some url list from the fresh initial state and flushed the final batch. -/
theorem RF.main_char (behavior : Nat → RF.ItemBehavior) (clockItem : Nat → String)
    (failedUrls : List String) (sink0 : SinkFile) :
    ((RF.main behavior clockItem failedUrls sink0).events = [] ∧
     (RF.main behavior clockItem failedUrls sink0).sessions = []) ∨
    ∃ urls s1, s1 = RF.runLoop behavior clockItem urls 0 ⟨0, 0, [], sink0, [], 0, []⟩ ∧
      (RF.main behavior clockItem failedUrls sink0).events =
        s1.events ++ (if s1.batch.isEmpty then [] else [Event.sinkAppend s1.batch]) ∧
      (RF.main behavior clockItem failedUrls sink0).sessions = s1.sessions := by
  unfold RF.main
  dsimp only
  split
  · exact Or.inl ⟨rfl, rfl⟩
  · split
    · exact Or.inl ⟨rfl, rfl⟩
    · refine Or.inr
        ⟨failedUrls.filter (fun u => !((RF.load_existing_results sink0).contains u)),
         RF.runLoop behavior clockItem
           (failedUrls.filter (fun u => !((RF.load_existing_results sink0).contains u))) 0
           ⟨0, 0, [], sink0, [], 0, []⟩, rfl, ?_, ?_⟩
      · dsimp only
        split <;> rename_i hb <;> simp [hb]
      · dsimp only
        split <;> rfl

/-! ## Well-formedness of persisted records (claim C3) -/

theorem wf_of_error_none {r : Result} (h : r.error = none) : WFResult r := by
  intro hs
  rw [h] at hs
  exact absurd hs (by simp)

theorem RFB.extract_wf (url : String) (pg : RFB.PageOutcome) :
    WFResult (RFB.extract_url_data url pg) := by
  cases pg with
  | navError msg => exact fun _ => ⟨rfl, rfl, rfl⟩
  | cfChallenged => exact fun _ => ⟨rfl, rfl, rfl⟩
  | loaded h1 h2 c =>
    intro h
    exact absurd h (by simp [RFB.extract_url_data])

/-- On a well-formed record the code's success test agrees with the spec's
rule "some field non-empty AND error unset". -/
theorem isSuccess_eq_spec {r : Result} (h : WFResult r) :
    isSuccessRecord r = specSuccess r := by
  cases hr : r.error with
  | none => simp [isSuccessRecord, specSuccess, hr]
  | some e =>
    obtain ⟨h1, h2, h3⟩ := h (by simp [hr])
    simp [isSuccessRecord, specSuccess, hr, h1, h2, h3, truthy]

/-- One batch-loop iteration preserves well-formedness of the buffer and of
every flushed payload. -/
theorem RFB.processItem_wf (cfg : RFB.Config) (w : Nat → WriteOutcome) (st : Nat) :
    ∀ done url s,
      ((∀ r ∈ s.buffer, WFResult r) ∧
        (∀ rs ∈ sinkPayloads s.events, ∀ r ∈ rs, WFResult r)) →
      ((∀ r ∈ (RFB.processItem cfg w st done url s).buffer, WFResult r) ∧
        (∀ rs ∈ sinkPayloads (RFB.processItem cfg w st done url s).events,
          ∀ r ∈ rs, WFResult r)) := by
  intro done url s hP
  obtain ⟨hbuf, hpay⟩ := hP
  rcases RFB.processItem_char cfg w st done url s with h | ⟨msg, h⟩ |
    ⟨pg, suc, fl, h⟩ | ⟨pg, suc, fl, h⟩ <;> rw [h]
  · exact ⟨hbuf, hpay⟩
  · refine ⟨?_, hpay⟩
    intro r hr
    rcases List.mem_append.mp hr with h' | h'
    · exact hbuf r h'
    · have hr' : r = RFB.errorRecord url msg := by simpa using h'
      subst hr'
      exact fun _ => ⟨rfl, rfl, rfl⟩
  · refine ⟨?_, hpay⟩
    intro r hr
    rcases List.mem_append.mp hr with h' | h'
    · exact hbuf r h'
    · have hr' : r = RFB.extract_url_data url pg := by simpa using h'
      subst hr'
      exact RFB.extract_wf url pg
  · constructor
    · intro r hr
      exact absurd hr (List.not_mem_nil r)
    · intro rs hrs
      have hrs' : rs ∈ sinkPayloads (s.events ++
          [Event.sinkAppend (s.buffer ++ [RFB.extract_url_data url pg]),
           Event.ckptSave (st + done + 1) (s.processed.insert url)]) := hrs
      rw [sinkPayloads_append] at hrs'
      rcases List.mem_append.mp hrs' with h' | h'
      · exact hpay rs h'
      · have hrs'' : rs = s.buffer ++ [RFB.extract_url_data url pg] := by
          simpa [sinkPayloads] using h'
        subst hrs''
        intro r hr
        rcases List.mem_append.mp hr with h'' | h''
        · exact hbuf r h''
        · have hr' : r = RFB.extract_url_data url pg := by simpa using h''
          subst hr'
          exact RFB.extract_wf url pg

/-- Every payload the batch engine flushes to the sink is well-formed. -/
theorem RFB.main_wf (cfg : RFB.Config) (w : Nat → WriteOutcome) (allUrls : List String)
    (sink0 : SinkFile) (ckpt0 : CkptFile) :
    ∀ rs ∈ sinkPayloads (RFB.main cfg w allUrls sink0 ckpt0).events,
      ∀ r ∈ rs, WFResult r := by
  unfold RFB.main
  dsimp only
  split
  · intro rs hrs
    exact absurd hrs (by simp [sinkPayloads])
  · rw [RFB.finishRun_sinkPayloads]
    have hloop := RFB.runLoop_ind cfg w (RFB.load_checkpoint ckpt0).last_index
      (fun _ s => (∀ r ∈ s.buffer, WFResult r) ∧
        (∀ rs ∈ sinkPayloads s.events, ∀ r ∈ rs, WFResult r))
      (RFB.processItem_wf cfg w (RFB.load_checkpoint ckpt0).last_index)
      ((allUrls.drop (RFB.load_checkpoint ckpt0).last_index).take
        (min ((RFB.load_checkpoint ckpt0).last_index + cfg.batchSize) allUrls.length -
          (RFB.load_checkpoint ckpt0).last_index)) 0
      ⟨0, 0, [], (RFB.load_checkpoint ckpt0).processed_urls, sink0, ckpt0, [], 0, [], 0⟩
      ⟨by simp, by simp [sinkPayloads]⟩
    obtain ⟨hbuf, hpay⟩ := hloop
    intro rs hrs
    rcases List.mem_append.mp hrs with h | h
    · exact hpay rs h
    · split at h
      · exact absurd h (List.not_mem_nil rs)
      · have hrs' := List.mem_singleton.mp h
        subst hrs'
        exact hbuf

/-- One v1-loop iteration preserves well-formedness of the buffer and of every
flushed payload. -/
theorem RF.v1Item_wf (behavior : Nat → RF.ItemBehavior) (clockItem : Nat → String) :
    ∀ i url s,
      ((∀ r ∈ s.batch, WFResult r) ∧
        (∀ rs ∈ sinkPayloads s.events, ∀ r ∈ rs, WFResult r)) →
      ((∀ r ∈ (RF.processItem behavior clockItem i url s).batch, WFResult r) ∧
        (∀ rs ∈ sinkPayloads (RF.processItem behavior clockItem i url s).events,
          ∀ r ∈ rs, WFResult r)) := by
  intro i url s hP
  obtain ⟨hbuf, hpay⟩ := hP
  rcases RF.v1Item_char behavior clockItem i url s with ⟨msg, h⟩ |
    ⟨attempts, suc, fl, h⟩ | ⟨attempts, suc, fl, h⟩ <;> rw [h]
  · refine ⟨?_, hpay⟩
    intro r hr
    rcases List.mem_append.mp hr with h' | h'
    · exact hbuf r h'
    · have hr' : r = RF.errorRecord url msg (clockItem i) := by simpa using h'
      subst hr'
      exact fun _ => ⟨rfl, rfl, rfl⟩
  · refine ⟨?_, hpay⟩
    intro r hr
    rcases List.mem_append.mp hr with h' | h'
    · exact hbuf r h'
    · have hr' : r = { (RF.extract_url_data url s.nextSession attempts).1 with
          extractedAt := some (clockItem i) } := by simpa using h'
      subst hr'
      exact wf_of_error_none (RF.extract_spec url s.nextSession attempts).1
  · constructor
    · intro r hr
      exact absurd hr (List.not_mem_nil r)
    · intro rs hrs
      have hrs' : rs ∈ sinkPayloads (s.events ++
          [Event.sinkAppend (s.batch ++
            [{ (RF.extract_url_data url s.nextSession attempts).1 with
              extractedAt := some (clockItem i) }])]) := hrs
      rw [sinkPayloads_append] at hrs'
      rcases List.mem_append.mp hrs' with h' | h'
      · exact hpay rs h'
      · have hrs'' : rs = s.batch ++
            [{ (RF.extract_url_data url s.nextSession attempts).1 with
              extractedAt := some (clockItem i) }] := by
          simpa [sinkPayloads] using h'
        subst hrs''
        intro r hr
        rcases List.mem_append.mp hr with h'' | h''
        · exact hbuf r h''
        · have hr' : r = { (RF.extract_url_data url s.nextSession attempts).1 with
              extractedAt := some (clockItem i) } := by simpa using h''
          subst hr'
          exact wf_of_error_none (RF.extract_spec url s.nextSession attempts).1

/-- Every payload the v1 engine flushes to the sink is well-formed. -/
theorem RF.v1Main_wf (behavior : Nat → RF.ItemBehavior) (clockItem : Nat → String)
    (failedUrls : List String) (sink0 : SinkFile) :
    ∀ rs ∈ sinkPayloads (RF.main behavior clockItem failedUrls sink0).events,
      ∀ r ∈ rs, WFResult r := by
  rcases RF.main_char behavior clockItem failedUrls sink0 with ⟨hev, _⟩ | ⟨urls, s1, hs1, hev, _⟩
  · rw [hev]
    intro rs hrs
    exact absurd hrs (by simp [sinkPayloads])
  · rw [hev]
    have hloop := RF.v1Loop_ind behavior clockItem
      (fun _ s => (∀ r ∈ s.batch, WFResult r) ∧
        (∀ rs ∈ sinkPayloads s.events, ∀ r ∈ rs, WFResult r))
      (RF.v1Item_wf behavior clockItem) urls 0 ⟨0, 0, [], sink0, [], 0, []⟩
      ⟨by simp, by simp [sinkPayloads]⟩
    rw [← hs1] at hloop
    obtain ⟨hbuf, hpay⟩ := hloop
    intro rs hrs
    rw [sinkPayloads_append] at hrs
    rcases List.mem_append.mp hrs with h | h
    · exact hpay rs h
    · split at h
      · exact absurd h (by simp [sinkPayloads])
      · have hrs' : rs = s1.batch := by simpa [sinkPayloads] using h
        subst hrs'
        exact hbuf

/-! ## Claim C3: success classification rule -/

/-- Claim C3: for every record either engine persists to the results file, the
code counts it successful exactly when at least one of h1/h2/content is
non-empty AND its error field is unset; consequently
`count_success_failure` on a flushed payload counts by the spec's rule. (The
code's test looks only at the fields, but every record the engines construct
with an error set has all-empty fields, so the two rules agree on persisted
records.) -/
theorem C3_success_classification (cfg : RFB.Config) (w : Nat → WriteOutcome)
    (allUrls : List String) (sink0 : SinkFile) (ckpt0 : CkptFile)
    (behavior : Nat → RF.ItemBehavior) (clockItem : Nat → String)
    (failedUrls : List String) (sink1 : SinkFile) :
    (∀ rs ∈ sinkPayloads (RFB.main cfg w allUrls sink0 ckpt0).events, ∀ r ∈ rs,
      isSuccessRecord r = specSuccess r) ∧
    (∀ rs ∈ sinkPayloads (RFB.main cfg w allUrls sink0 ckpt0).events,
      CheckStatus.count_success_failure rs =
        ((rs.filter specSuccess).length, rs.length - (rs.filter specSuccess).length)) ∧
    (∀ rs ∈ sinkPayloads (RF.main behavior clockItem failedUrls sink1).events, ∀ r ∈ rs,
      isSuccessRecord r = specSuccess r) ∧
    (∀ rs ∈ sinkPayloads (RF.main behavior clockItem failedUrls sink1).events,
      CheckStatus.count_success_failure rs =
        ((rs.filter specSuccess).length, rs.length - (rs.filter specSuccess).length)) := by
  have hb := RFB.main_wf cfg w allUrls sink0 ckpt0
  have hv := RF.v1Main_wf behavior clockItem failedUrls sink1
  refine ⟨fun rs hrs r hr => isSuccess_eq_spec (hb rs hrs r hr), fun rs hrs => ?_,
    fun rs hrs r hr => isSuccess_eq_spec (hv rs hrs r hr), fun rs hrs => ?_⟩
  · have hfilter : rs.filter isSuccessRecord = rs.filter specSuccess :=
      List.filter_congr fun r hr => isSuccess_eq_spec (hb rs hrs r hr)
    simp [CheckStatus.count_success_failure, hfilter]
  · have hfilter : rs.filter isSuccessRecord = rs.filter specSuccess :=
      List.filter_congr fun r hr => isSuccess_eq_spec (hv rs hrs r hr)
    simp [CheckStatus.count_success_failure, hfilter]

/-- Witness for `C3_success_classification` on a concrete two-item batch run
and a concrete one-item v1 run. -/
theorem C3_witness :
    isSuccessRecord ⟨"p", "t", "", "", none, none⟩ =
      specSuccess ⟨"p", "t", "", "", none, none⟩ ∧
    isSuccessRecord ⟨"u", "", "", "", none, some ""⟩ =
      specSuccess ⟨"u", "", "", "", none, some ""⟩ := by
  have h := C3_success_classification ⟨2, 2, fun _ => .page (.loaded "t" "" ""), fun _ => ""⟩
    (fun _ => .ok) ["p", "q"] .missing .missing
    (fun _ => .session fun _ => .raiseExc "boom") (fun _ => "") ["u"] .missing
  constructor
  · exact h.1 [⟨"p", "t", "", "", none, none⟩, ⟨"q", "t", "", "", none, none⟩] (by decide)
      ⟨"p", "t", "", "", none, none⟩ (by decide)
  · exact h.2.2.1 [⟨"u", "", "", "", none, some ""⟩] (by decide)
      ⟨"u", "", "", "", none, some ""⟩ (by decide)

/-! ## Claim C4: retry-exhaustion outcome -/

/-- Claim C4 counterexample: the claim says a work item whose render session
raises on every attempt yields a result whose `error` field is the last
exception's message. In `retry_failures.py`, when every attempt of
`extract_url_data` raises, the loop falls through and returns an all-empty
record with NO error entry (`error = none`, not `some "boom"`), a benign
empty. (The attempt count is also 5, the source's `max_retries` default, not
the claim's 3.) -/
theorem C4_counterexample :
    (RF.main (fun _ => .session fun _ => .raiseExc "boom") (fun _ => "")
        ["u"] .missing).sink = .valid [⟨"u", "", "", "", none, some ""⟩] ∧
    (RF.main (fun _ => .session fun _ => .raiseExc "boom") (fun _ => "")
        ["u"] .missing).still_failed = 1 ∧
    (⟨"u", "", "", "", none, some ""⟩ : Result).error = none ∧
    ¬ (⟨"u", "", "", "", none, some ""⟩ : Result).error = some "boom" := by
  decide

/-- Claim C4, amended: for a work item whose render session raises on every one
of the maxAttempts (5, the source's default, not 3) attempts, the extraction
returns a result with all-empty fields and NO error entry (a benign empty,
indistinguishable from a legitimately empty page), the run continues to the
next item, and the final counters show exactly 1 failed (plus the next item's
success). -/
theorem C4_retry_exhaustion (msgs : Nat → String) :
    RF.main
        (fun i => if i = 0 then RF.ItemBehavior.session fun k => RF.Attempt1.raiseExc (msgs k)
          else RF.ItemBehavior.session fun _ => RF.Attempt1.ok "y" "" "")
        (fun _ => "") ["u", "v"] SinkFile.missing =
      ⟨1, 1,
       .valid [⟨"u", "", "", "", none, some ""⟩, ⟨"v", "y", "", "", none, some ""⟩],
       [.sinkAppend [⟨"u", "", "", "", none, some ""⟩, ⟨"v", "y", "", "", none, some ""⟩]],
       [(0, [0, 0, 0, 0, 0]), (1, [1])], 2⟩ := by
  rfl

/-! ## Claim C9 counterexample: sessions are NOT fresh per attempt in v1 -/

/-- Claim C9 counterexample: the claim says each of the up-to-maxAttempts
attempts within one item acquires a fresh render session. In
`retry_failures.py`, `main` creates one driver per item and
`extract_url_data` reuses it for all five attempts: on an always-raising
session the item's attempt log is `[0,0,0,0,0]` — five attempts on the same
session 0, which is not pairwise distinct. -/
theorem C9_counterexample :
    (RF.main (fun _ => .session fun _ => .raiseExc "crash") (fun _ => "")
        ["w"] .missing).sessions = [(0, [0, 0, 0, 0, 0])] ∧
    ¬ List.Pairwise (fun a b => a ≠ b) [0, 0, 0, 0, 0] := by
  decide

/-! ## Session freshness (claim C9) -/

theorem RFB.finishRun_itemSessions (cfg : RFB.Config) (w : Nat → WriteOutcome)
    (e bc : Nat) (s : RFB.BatchState) :
    (RFB.finishRun cfg w e bc s).itemSessions = s.itemSessions := by
  unfold RFB.finishRun
  dsimp only
  split <;> rfl

/-- One batch-loop iteration keeps the per-item session list strictly
increasing and bounded by the session counter. -/
theorem RFB.processItem_sessions (cfg : RFB.Config) (w : Nat → WriteOutcome) (st : Nat) :
    ∀ done url s,
      ((∀ x ∈ s.itemSessions, x < s.nextSession) ∧
        List.Pairwise (· < ·) s.itemSessions) →
      ((∀ x ∈ (RFB.processItem cfg w st done url s).itemSessions,
          x < (RFB.processItem cfg w st done url s).nextSession) ∧
        List.Pairwise (· < ·) (RFB.processItem cfg w st done url s).itemSessions) := by
  intro done url s hP
  obtain ⟨hb, hp⟩ := hP
  rcases RFB.processItem_char cfg w st done url s with h | ⟨msg, h⟩ |
    ⟨pg, suc, fl, h⟩ | ⟨pg, suc, fl, h⟩ <;> rw [h]
  · exact ⟨hb, hp⟩
  · exact ⟨hb, hp⟩
  all_goals
    constructor
    · intro x hx
      show x < s.nextSession + 1
      rcases List.mem_append.mp hx with h' | h'
      · have := hb x h'
        omega
      · have hx' := List.mem_singleton.mp h'
        omega
    · show List.Pairwise (· < ·) (s.itemSessions ++ [s.nextSession])
      refine List.pairwise_append.mpr ⟨hp, List.pairwise_singleton _ _, ?_⟩
      intro a ha b hbm
      have hb' := List.mem_singleton.mp hbm
      have := hb a ha
      omega

/-- One v1-loop iteration keeps the per-item session records coherent: ids
strictly increasing, each item's attempt log on its own session, at most five
attempts. -/
theorem RF.v1Item_sessions (behavior : Nat → RF.ItemBehavior)
    (clockItem : Nat → String) :
    ∀ i url s,
      ((∀ q ∈ s.sessions, q.1 < s.nextSession ∧ (∀ x ∈ q.2, x = q.1) ∧ q.2.length ≤ 5) ∧
        List.Pairwise (· < ·) (s.sessions.map Prod.fst)) →
      ((∀ q ∈ (RF.processItem behavior clockItem i url s).sessions,
          q.1 < (RF.processItem behavior clockItem i url s).nextSession ∧
          (∀ x ∈ q.2, x = q.1) ∧ q.2.length ≤ 5) ∧
        List.Pairwise (· < ·)
          ((RF.processItem behavior clockItem i url s).sessions.map Prod.fst)) := by
  intro i url s hP
  obtain ⟨hb, hp⟩ := hP
  rcases RF.v1Item_char behavior clockItem i url s with ⟨msg, h⟩ |
    ⟨attempts, suc, fl, h⟩ | ⟨attempts, suc, fl, h⟩ <;> rw [h]
  · exact ⟨hb, hp⟩
  all_goals
    obtain ⟨_, hmem, hlen⟩ := RF.extract_spec url s.nextSession attempts
    constructor
    · intro q hq
      show q.1 < s.nextSession + 1 ∧ (∀ x ∈ q.2, x = q.1) ∧ q.2.length ≤ 5
      rcases List.mem_append.mp
        (show q ∈ s.sessions ++
          [(s.nextSession, (RF.extract_url_data url s.nextSession attempts).2)] from hq)
        with h' | h'
      · obtain ⟨h1, h2, h3⟩ := hb q h'
        exact ⟨by omega, h2, h3⟩
      · have hq' := List.mem_singleton.mp h'
        subst hq'
        exact ⟨by omega, hmem, hlen⟩
    · show List.Pairwise (· < ·)
        ((s.sessions ++
          [(s.nextSession, (RF.extract_url_data url s.nextSession attempts).2)]).map Prod.fst)
      rw [List.map_append]
      refine List.pairwise_append.mpr ⟨hp, List.pairwise_singleton _ _, ?_⟩
      intro a ha b hbm
      have hb' : b = s.nextSession := by simpa using hbm
      rcases List.mem_map.mp ha with ⟨q, hq, rfl⟩
      have := (hb q hq).1
      omega

/-! ## Claim C9: fresh render session per item, not per attempt -/

/-- Claim C9, amended: each processed item acquires one fresh render session,
and sessions are never reused across items (session ids are pairwise distinct
in both engines). Within one item, however, the v1 engine reuses that single
session for all of its up-to-5 attempts (each item's attempt log uses only
the item's own session id), and the batch engine performs a single attempt
per item; no engine acquires a fresh session per attempt. -/
theorem C9_fresh_session_per_item (cfg : RFB.Config) (w : Nat → WriteOutcome)
    (allUrls : List String) (sink0 : SinkFile) (ckpt0 : CkptFile)
    (behavior : Nat → RF.ItemBehavior) (clockItem : Nat → String)
    (failedUrls : List String) (sink1 : SinkFile) :
    List.Pairwise (· ≠ ·) (RFB.main cfg w allUrls sink0 ckpt0).itemSessions ∧
    List.Pairwise (· ≠ ·)
      ((RF.main behavior clockItem failedUrls sink1).sessions.map Prod.fst) ∧
    (∀ q ∈ (RF.main behavior clockItem failedUrls sink1).sessions,
      (∀ x ∈ q.2, x = q.1) ∧ q.2.length ≤ 5) := by
  constructor
  · unfold RFB.main
    dsimp only
    split
    · simp
    · rw [RFB.finishRun_itemSessions]
      have hloop := RFB.runLoop_ind cfg w (RFB.load_checkpoint ckpt0).last_index
        (fun _ s => (∀ x ∈ s.itemSessions, x < s.nextSession) ∧
          List.Pairwise (· < ·) s.itemSessions)
        (RFB.processItem_sessions cfg w (RFB.load_checkpoint ckpt0).last_index)
        ((allUrls.drop (RFB.load_checkpoint ckpt0).last_index).take
          (min ((RFB.load_checkpoint ckpt0).last_index + cfg.batchSize) allUrls.length -
            (RFB.load_checkpoint ckpt0).last_index)) 0
        ⟨0, 0, [], (RFB.load_checkpoint ckpt0).processed_urls, sink0, ckpt0, [], 0, [], 0⟩
        ⟨by simp, by simp⟩
      exact hloop.2.imp fun hab => Nat.ne_of_lt hab
  · have hmain := RF.main_char behavior clockItem failedUrls sink1
    rcases hmain with ⟨_, hse⟩ | ⟨urls, s1, hs1, _, hse⟩
    · rw [hse]
      exact ⟨List.Pairwise.nil, fun q hq => absurd hq (List.not_mem_nil q)⟩
    · rw [hse]
      have hloop := RF.v1Loop_ind behavior clockItem
        (fun _ s => (∀ q ∈ s.sessions,
            q.1 < s.nextSession ∧ (∀ x ∈ q.2, x = q.1) ∧ q.2.length ≤ 5) ∧
          List.Pairwise (· < ·) (s.sessions.map Prod.fst))
        (RF.v1Item_sessions behavior clockItem) urls 0 ⟨0, 0, [], sink1, [], 0, []⟩
        ⟨fun q hq => absurd hq (List.not_mem_nil q), by simp⟩
      rw [← hs1] at hloop
      obtain ⟨hq, hpw⟩ := hloop
      exact ⟨hpw.imp fun hab => Nat.ne_of_lt hab, fun q hqm => ⟨(hq q hqm).2.1, (hq q hqm).2.2⟩⟩

/-- Witness for `C9_fresh_session_per_item` at a concrete one-item v1 run whose
session always raises. -/
theorem C9_witness :
    (∀ x ∈ [0, 0, 0, 0, 0], x = 0) ∧ ([0, 0, 0, 0, 0] : List Nat).length ≤ 5 := by
  have h := C9_fresh_session_per_item ⟨2, 2, fun _ => .page (.loaded "t" "" ""), fun _ => ""⟩
    (fun _ => .ok) ["p"] .missing .missing
    (fun _ => .session fun _ => .raiseExc "crash2") (fun _ => "") ["w2"] .missing
  exact h.2.2 (0, [0, 0, 0, 0, 0]) (by decide)

/-! ## Claim C5: checkpoint load tolerance -/

/-- Claim C5 counterexample: the claim states that for every state of the
checkpoint file (missing or unparseable), load returns the zero checkpoint
rather than raising. `check_status.py`'s `load_checkpoint` — one of the two
functions the claim covers — raises on an unparseable file instead of
returning the zero checkpoint. -/
theorem C5_counterexample :
    CheckStatus.load_checkpoint .corrupt = .error "JSONDecodeError" ∧
    CheckStatus.load_checkpoint .corrupt ≠ .ok ⟨0, []⟩ := by
  constructor
  · rfl
  · intro h
    exact Except.noConfusion h

/-- Claim C5, amended: the batch engine's `load_checkpoint` returns the
zero-value checkpoint `{lastIndex: 0, processedIds: ∅}` on a missing and on an
unparseable checkpoint file; `check_status.py`'s `load_checkpoint` returns the
zero checkpoint only on a missing file and raises on an unparseable one. -/
theorem C5_load_tolerance :
    RFB.load_checkpoint .missing = ⟨0, []⟩ ∧
    RFB.load_checkpoint .corrupt = ⟨0, []⟩ ∧
    CheckStatus.load_checkpoint .missing = .ok ⟨0, []⟩ ∧
    (∃ e, CheckStatus.load_checkpoint .corrupt = .error e) :=
  ⟨rfl, rfl, rfl, "JSONDecodeError", rfl⟩

/-! ## Claim C7: sink append preserves existing records -/

/-- Claim C7: appending to the sink preserves every previously persisted record
unmodified and concatenates the new results after them, for both
`append_results` (batch) and `save_results` (v1). -/
theorem C7_append_preserves (existing new : List Result) :
    RFB.append_results new (.valid existing) = .valid (existing ++ new) ∧
    RF.save_results new (.valid existing) = .valid (existing ++ new) ∧
    (readSink (RFB.append_results new (.valid existing))).take existing.length = existing ∧
    (readSink (RFB.append_results new (.valid existing))).drop existing.length = new := by
  have h1 : RFB.append_results new (.valid existing) = .valid (existing ++ new) := by
    unfold RFB.append_results
    cases new with
    | nil => simp [readSink]
    | cons a l => simp [readSink]
  refine ⟨h1, rfl, ?_, ?_⟩
  · rw [h1]
    simp [readSink]
  · rw [h1]
    simp [readSink]

/-! ## Checkpoint-write insensitivity (claim C10) -/

/-- One batch-loop iteration acts on everything except the checkpoint file
independently of the checkpoint-write oracle and of the checkpoint file. -/
theorem RFB.processItem_core (cfg : RFB.Config) (w₁ w₂ : Nat → WriteOutcome)
    (st done : Nat) (url : String) :
    ∀ s₁ s₂ : RFB.BatchState, s₁.core = s₂.core →
      (RFB.processItem cfg w₁ st done url s₁).core =
        (RFB.processItem cfg w₂ st done url s₂).core := by
  intro s₁ s₂ h
  obtain ⟨a, b, c, d, e, c₁, g, i, j, k⟩ := s₁
  obtain ⟨a', b', c', d', e', c₂, g', i', j', k'⟩ := s₂
  simp only [RFB.BatchState.core, Prod.mk.injEq] at h
  obtain ⟨rfl, rfl, rfl, rfl, rfl, rfl, rfl, rfl, rfl⟩ := h
  unfold RFB.processItem
  by_cases hmem : url ∈ d
  · simp [hmem, RFB.BatchState.core]
  · simp only [hmem, if_false]
    cases hb : cfg.behavior (st + done) with
    | driverFail msg => rfl
    | page pg =>
      dsimp only
      by_cases hs : isSuccessRecord (RFB.extract_url_data url pg) = true <;>
        by_cases hsi : cfg.saveInterval ≤ c.length + 1 <;>
        simp [hs, hsi, RFB.flushState, RFB.BatchState.core]

/-- The batch loop acts on everything except the checkpoint file independently
of the checkpoint-write oracle. -/
theorem RFB.runLoop_core (cfg : RFB.Config) (w₁ w₂ : Nat → WriteOutcome) (st : Nat) :
    ∀ urls done (s₁ s₂ : RFB.BatchState), s₁.core = s₂.core →
      (RFB.runLoop cfg w₁ st urls done s₁).core =
        (RFB.runLoop cfg w₂ st urls done s₂).core := by
  intro urls
  induction urls with
  | nil =>
    intro done s₁ s₂ h
    simpa [RFB.runLoop] using h
  | cons u rest ih =>
    intro done s₁ s₂ h
    simp only [RFB.runLoop]
    exact ih (done + 1) _ _ (RFB.processItem_core cfg w₁ w₂ st done u s₁ s₂ h)

/-- Finalization acts on everything except the checkpoint file independently of
the checkpoint-write oracle. -/
theorem RFB.finishRun_core (cfg : RFB.Config) (w₁ w₂ : Nat → WriteOutcome)
    (e bc : Nat) :
    ∀ s₁ s₂ : RFB.BatchState, s₁.core = s₂.core →
      (RFB.finishRun cfg w₁ e bc s₁).core = (RFB.finishRun cfg w₂ e bc s₂).core := by
  intro s₁ s₂ h
  obtain ⟨a, b, c, d, e', c₁, g, i, j, k⟩ := s₁
  obtain ⟨a', b', c', d', e'', c₂, g', i', j', k'⟩ := s₂
  simp only [RFB.BatchState.core, Prod.mk.injEq] at h
  obtain ⟨rfl, rfl, rfl, rfl, rfl, rfl, rfl, rfl, rfl⟩ := h
  unfold RFB.finishRun
  by_cases hb : c.isEmpty = true <;> simp [hb, RFB.RunReport.core]

/-! ## Claim C10: checkpoint save never aborts the run -/

/-- Claim C10: `save_checkpoint` never propagates an exception — it is a total
function whose failure outcome only logs the message (second component) and
leaves the file as it was; and the whole run's counters, trace, sink,
processed set and session log are identical under any two checkpoint-write
oracles (only the checkpoint file on disk can differ). -/
theorem C10_save_checkpoint_no_raise (cfg : RFB.Config) (w₁ w₂ : Nat → WriteOutcome)
    (allUrls : List String) (sink0 : SinkFile) (ckpt0 : CkptFile)
    (li : Nat) (proc : List String) (now : String) (file : CkptFile) (msg : String) :
    RFB.save_checkpoint li proc now file .ok = (.valid ⟨li, proc, now⟩, none) ∧
    RFB.save_checkpoint li proc now file (.fail msg) = (file, some msg) ∧
    (RFB.main cfg w₁ allUrls sink0 ckpt0).core =
      (RFB.main cfg w₂ allUrls sink0 ckpt0).core := by
  refine ⟨rfl, rfl, ?_⟩
  unfold RFB.main
  dsimp only
  split
  · rfl
  · exact RFB.finishRun_core cfg w₁ w₂ _ _ _ _
      (RFB.runLoop_core cfg w₁ w₂ _ _ 0 _ _ rfl)

end Retry
